import Mathlib

/-!
Verification of the SolitaireCLI move-validation engine and its binary
persistence codec, shallowly embedded from the C++ sources
(`Solitaire/src/game/Card.cpp`, `Card.hpp`, `Deck.hpp`, `Game.hpp`,
`Game.cpp`, `util/fs.hpp`).

Modelling conventions:
* `Suit` is modelled as a `Nat` (the C++ `enum class Suit : unsigned char`
  with Hearts = 0, Diamonds = 1, Clubs = 2, Spades = 3), and `Rank` as a
  `Nat` (the C++ `enum class Rank : unsigned char`, Ace = 1 .. King = 13).
  All C++ comparisons on these enums go through integer casts, which the
  `Nat` comparisons mirror.
* A `std::vector<Card>` is a `List Card` whose back (top of a column /
  pile / deck) is the last element.
* The C++ default constructor `Card()` sets only `valid = false` and
  leaves suit, rank and facing indeterminate; `defaultCard` is the fixed
  representative used for such sentinel cards.  No theorem below depends
  on the junk fields of a sentinel except where a concrete instance is
  exhibited on purpose.
* `std::mt19937` shuffles are modelled relationally as an arbitrary
  `List.Perm` permutation.
* Indices asserted in C++ through the `ASSERT` macro are carried as
  side conditions of theorems, not checked by the executable model.
-/

/-- A playing card: suit (0 = Hearts, 1 = Diamonds, 2 = Clubs, 3 = Spades),
rank (1 = Ace .. 13 = King), facing flag and validity flag, mirroring the
four fields of the C++ `Card` class. -/
structure Card where
  suit : Nat
  rank : Nat
  facingUp : Bool
  valid : Bool
deriving DecidableEq, Repr

/-- Representative of the C++ default-constructed `Card()`: only
`valid = false` is actually assigned by the constructor; the remaining
fields are indeterminate in C++ and fixed to zero / face-down here. -/
def defaultCard : Card := ⟨0, 0, false, false⟩

/-- `Card::Card(Suit, Rank)`: face-down, valid. -/
def mkCard (s r : Nat) : Card := ⟨s, r, false, true⟩

/-- `Card::flip()`: toggles the facing flag. -/
def Card.flip (c : Card) : Card := { c with facingUp := !c.facingUp }

/-- `Card::isRed()`: Hearts or Diamonds. -/
def Card.isRed (c : Card) : Bool := c.suit == 0 || c.suit == 1

/-- The 52-card list built by `Deck::reset()` before shuffling:
4 suits times 13 ranks, all face-down, all valid. -/
def canonicalDeckList : List Card :=
  (List.range 4).flatMap (fun s => (List.range 13).map (fun r => mkCard s (r + 1)))

/-- The full `Game` state: deck, current card, the seven tableau columns,
the discard pile and the four reserve (foundation) slots. -/
structure GameState where
  deck : List Card
  currentCard : Card
  columns : List (List Card)
  pile : List Card
  reserveSlots : List Card
deriving DecidableEq, Repr

/-- The state of a freshly constructed `Game` holding deck `d`:
empty columns and pile, default-constructed current card and reserves. -/
def initState (d : List Card) : GameState :=
  ⟨d, defaultCard, List.replicate 7 [], [], List.replicate 4 defaultCard⟩

/-- The reveal idiom appearing in `Game::moveCard` and
`Game::moveFromColumnToReserve`:
`if (!col.empty() && !col.back().isFacingUp()) col.back().flip();`. -/
def revealTop (col : List Card) : List Card :=
  match col.getLast? with
  | none => col
  | some c => if c.facingUp then col else col.dropLast ++ [c.flip]

/-- `Game::drawCard()`: fails on an empty deck, otherwise pops the deck's
top card, flips it, stores it as the current card and appends it to the
pile. -/
def drawCard (g : GameState) : Bool × GameState :=
  if g.deck = [] then (false, g)
  else
    let c := (g.deck.getLastD defaultCard).flip
    (true, { g with deck := g.deck.dropLast, currentCard := c, pile := g.pile ++ [c] })

/-- The landing test shared by `Game::moveCard`, `Game::moveFromPileToColumn`
and `Game::moveFromReserveToColumn`: an empty destination requires a King,
otherwise the destination top must differ in colour and have rank exactly
one above the moving card. -/
def landingB (moving : Card) (dest : List Card) : Bool :=
  if dest = [] then moving.rank == 13
  else
    let top := dest.getLastD defaultCard
    !(top.isRed == moving.isRed) && (top.rank == moving.rank + 1)

/-- `Game::moveCard(fromCol, toCol, count)`.  The C++ `count` is an `int`
guarded by `count <= 0`; with `count : Nat` that guard becomes `count = 0`.
The two columns are vector references, so when `fromCol = toCol` the
insert grows the very vector the erase then shrinks; the sequential list
updates below reproduce that aliasing. -/
def moveCard (fromCol toCol count : Nat) (g : GameState) : Bool × GameState :=
  let from0 := g.columns.getD fromCol []
  if count = 0 ∨ from0.length < count then (false, g)
  else
    let startCard := from0.getD (from0.length - count) defaultCard
    if startCard.facingUp = false then (false, g)
    else
      let to0 := g.columns.getD toCol []
      if landingB startCard to0 = false then (false, g)
      else
        let movingCards := from0.drop (from0.length - count)
        let cols1 := g.columns.set toCol (to0 ++ movingCards)
        let from1 := cols1.getD fromCol []
        let cols2 := cols1.set fromCol (revealTop (from1.take (from1.length - count)))
        (true, { g with columns := cols2 })

/-- `Game::moveFromPileToColumn(toCol)`. -/
def moveFromPileToColumn (toCol : Nat) (g : GameState) : Bool × GameState :=
  if g.pile = [] then (false, g)
  else
    let card := g.pile.getLastD defaultCard
    let to0 := g.columns.getD toCol []
    if landingB card to0 = false then (false, g)
    else
      (true, { g with columns := g.columns.set toCol (to0 ++ [card]),
                      pile := g.pile.dropLast })

/-- The foundation acceptance test of `Game::moveFromPileToReserve` and
`Game::moveFromColumnToReserve`.  By C++ precedence the condition is
`(¬valid ∧ ace ∧ suit = slot) ∨ ((valid ∧ rank > cur) ∧ suit = slot)`:
an empty slot takes the matching-suit Ace, an occupied slot takes any
matching-suit card of strictly greater rank. -/
def reserveAccepts (cur card : Card) (slot : Nat) : Bool :=
  (!cur.valid && card.rank == 1 && card.suit == slot) ||
    (cur.valid && decide (cur.rank < card.rank) && card.suit == slot)

/-- `Game::moveFromPileToReserve(slot)`. -/
def moveFromPileToReserve (slot : Nat) (g : GameState) : Bool × GameState :=
  if g.pile = [] then (false, g)
  else
    let card := g.pile.getLastD defaultCard
    let cur := g.reserveSlots.getD slot defaultCard
    if reserveAccepts cur card slot then
      (true, { g with reserveSlots := g.reserveSlots.set slot card,
                      pile := g.pile.dropLast })
    else (false, g)

/-- `Game::moveFromColumnToReserve(fromCol, slot)`. -/
def moveFromColumnToReserve (fromCol slot : Nat) (g : GameState) : Bool × GameState :=
  let column := g.columns.getD fromCol []
  if column = [] then (false, g)
  else
    let card := column.getLastD defaultCard
    if card.facingUp = false then (false, g)
    else
      let cur := g.reserveSlots.getD slot defaultCard
      if reserveAccepts cur card slot then
        (true, { g with reserveSlots := g.reserveSlots.set slot card,
                        columns := g.columns.set fromCol (revealTop column.dropLast) })
      else (false, g)

/-- `Game::moveFromReserveToColumn(slot, toCol)`: applies the landing rule
to whatever card sits in the slot (validity is never inspected).  On
success a non-Ace refills the slot with a face-up card of the same suit
and one rank lower (`static_cast<Rank>(rank - 1)` on the `unsigned char`
underlying type, hence the mod-256 wrap), while an Ace leaves the
default-constructed sentinel behind. -/
def moveFromReserveToColumn (slot toCol : Nat) (g : GameState) : Bool × GameState :=
  let column := g.columns.getD toCol []
  let card := g.reserveSlots.getD slot defaultCard
  if landingB card column = false then (false, g)
  else
    let slotCard :=
      if card.rank ≠ 1 then (mkCard card.suit ((card.rank + 255) % 256)).flip
      else defaultCard
    (true, { g with columns := g.columns.set toCol (column ++ [card]),
                    reserveSlots := g.reserveSlots.set slot slotCard })

/-- The per-column test inside `Game::isGameWon()`: 13 cards, ranks
King down to Ace at positions 0..12, all face-up, adjacent colours
alternating (the early `break`s make the loop a conjunction). -/
def columnSetB (col : List Card) : Bool :=
  col.length == 13 &&
    (List.range 13).all (fun j =>
      ((col.getD j defaultCard).rank == 13 - j) &&
        (col.getD j defaultCard).facingUp &&
        (j == 0 || !((col.getD j defaultCard).isRed == (col.getD (j - 1) defaultCard).isRed)))

/-- `Game::isGameWon()`: counts the fully ordered columns among the seven
and wins exactly when the count is 4. -/
def isGameWon (g : GameState) : Bool :=
  ((List.range 7).countP (fun i => columnSetB (g.columns.getD i []))) == 4

/-- `Deck::reShuffle(pile)` as a relation on (deck, pile) pairs: requires
the deck empty (`ASSERT(isEmpty())`), moves the pile into the deck,
shuffles (an arbitrary permutation) and then flips every card. -/
def reShuffle (deckCards pile : List Card) (result : List Card × List Card) : Prop :=
  deckCards = [] ∧ ∃ l, pile.Perm l ∧ result = (l.map Card.flip, [])

/-- One inner iteration of `Game::start()`: `columns[i].push_back(deck.drawCard())`. -/
def drawToColumn (g : GameState) (i : Nat) : GameState :=
  let c := g.deck.getLastD defaultCard
  { g with deck := g.deck.dropLast,
           columns := g.columns.set i ((g.columns.getD i []) ++ [c]) }

/-- The inner loop of `Game::start()` for column `i`: `n` draws. -/
def drawNToColumn (g : GameState) (i : Nat) : Nat → GameState
  | 0 => g
  | n + 1 => drawNToColumn (drawToColumn g i) i n

/-- `columns[i][size - 1].flip()` at the end of each `Game::start()`
iteration (a no-op on an empty column, which `start` never produces). -/
def flipTopOfColumn (g : GameState) (i : Nat) : GameState :=
  let col := g.columns.getD i []
  match col.getLast? with
  | none => g
  | some c => { g with columns := g.columns.set i (col.dropLast ++ [c.flip]) }

/-- One outer iteration of `Game::start()`: deal `i + 1` cards into
column `i`, then flip its top card. -/
def startStep (g : GameState) (i : Nat) : GameState :=
  flipTopOfColumn (drawNToColumn g i (i + 1)) i

/-- `Game::start()` run on a fresh `Game` whose deck is `d`: the outer
loop over the seven columns. -/
def startGame (d : List Card) : GameState :=
  (List.range 7).foldl startStep (initState d)

/-! ## Binary persistence codec (`Game::saveFileGame` / `Game::readFileGame`
over `BufferedIO` from `util/fs.hpp`), modelled on byte lists. -/

/-- The 9 ASCII bytes of the `"Solitaire"` magic header. -/
def magicBytes : List Nat := [83, 111, 108, 105, 116, 97, 105, 114, 101]

/-- `BufferedFileWriter::writeInt`: a 32-bit value as 4 little-endian bytes. -/
def writeInt32 (n : Nat) : List Nat :=
  [n % 256, n / 256 % 256, n / 65536 % 256, n / 16777216 % 256]

/-- `BufferedFileWriter::writeBool`: one byte, 1 for true and 0 for false. -/
def writeBoolByte (b : Bool) : Nat := if b then 1 else 0

/-- `Card::writeCard`: suit and rank as int32, then the two flag bytes. -/
def writeCardBytes (c : Card) : List Nat :=
  writeInt32 c.suit ++ writeInt32 c.rank ++ [writeBoolByte c.facingUp, writeBoolByte c.valid]

/-- A length-prefixed card collection as written by `Game::saveFileGame`. -/
def writeCountedCards (l : List Card) : List Nat :=
  writeInt32 l.length ++ (l.map writeCardBytes).flatten

/-- The byte stream produced by `Game::saveFileGame` once the file is
open: magic, deck (counted), the seven columns (counted), the pile
(counted), then the four reserve slots with no count. -/
def saveBytes (g : GameState) : List Nat :=
  magicBytes ++ writeCountedCards g.deck ++
    ((List.range 7).map (fun i => writeCountedCards (g.columns.getD i []))).flatten ++
    writeCountedCards g.pile ++
    ((List.range 4).map (fun i => writeCardBytes (g.reserveSlots.getD i defaultCard))).flatten

/-- `Game::saveFileGame`: returns `false` when the file cannot be opened;
otherwise it writes `saveBytes` and then reaches the closing brace of a
non-void function without any `return` statement, so no return value
exists — modelled as `none`. -/
def saveFileGame (canOpen : Bool) (g : GameState) : Option Bool × List Nat :=
  if canOpen then (none, saveBytes g) else (some false, [])

/-- `BufferedFileReader::readInt`: 4 little-endian bytes reassembled into
a signed 32-bit value, `-1` (consuming nothing) when the stream is
exhausted. -/
def readInt32 : List Nat → Int × List Nat
  | b0 :: b1 :: b2 :: b3 :: rest =>
    let u := b0 % 256 + b1 % 256 * 256 + b2 % 256 * 65536 + b3 % 256 * 16777216
    (if u < 2147483648 then (u : Int) else (u : Int) - 4294967296, rest)
  | bs => (-1, bs)

/-- `BufferedFileReader::readBool`: one byte, 1 for non-zero, 0 for zero,
`-1` on an exhausted stream. -/
def readBoolByte : List Nat → Int × List Nat
  | b :: rest => (if b = 0 then 0 else 1, rest)
  | [] => (-1, [])

/-- `static_cast` of a C++ `int` to an `unsigned char`-backed enum. -/
def toByteNat (i : Int) : Nat := (i % 256).toNat

/-- `Card::readCard`: suit, rank, facing, valid, each field overwritten
from the stream (the previous card contents never survive). -/
def readCardBytes (bs : List Nat) : Card × List Nat :=
  let (si, bs1) := readInt32 bs
  let (ri, bs2) := readInt32 bs1
  let (fi, bs3) := readBoolByte bs2
  let (vi, bs4) := readBoolByte bs3
  (⟨toByteNat si, toByteNat ri, fi != 0, vi != 0⟩, bs4)

/-- `n` consecutive `Card::readCard` calls. -/
def readCards : Nat → List Nat → List Card × List Nat
  | 0, bs => ([], bs)
  | n + 1, bs =>
    let (c, bs1) := readCardBytes bs
    let (cs, bs2) := readCards n bs1
    (c :: cs, bs2)

/-- The column loop of `Game::readFileGame`: for each of `n` columns,
read a count and then that many cards (the `std::vector<Card> cards(size)`
default elements are each fully overwritten by `readCard`). -/
def readColumns : Nat → List Nat → List (List Card) × List Nat
  | 0, bs => ([], bs)
  | n + 1, bs =>
    let (sz, bs1) := readInt32 bs
    let (cs, bs2) := readCards sz.toNat bs1
    let (rest, bs3) := readColumns n bs2
    (cs :: rest, bs3)

/-- `Game::readFileGame`: fails when the file cannot be opened or the
magic header mismatches; otherwise overwrites deck, columns, pile and
reserves in place.  The deck block reproduces the C++ slip faithfully:
`std::vector<Card> deckCards(deckSize)` creates `deckSize`
default-constructed cards and the loop then `push_back`s the `deckSize`
cards read from the file behind them, so the resulting deck holds
`2 * deckSize` cards. -/
def readFileGame (canOpen : Bool) (bytes : List Nat) (g : GameState) : Bool × GameState :=
  if canOpen = false then (false, g)
  else if bytes.take 9 ≠ magicBytes then (false, g)
  else
    let bs0 := bytes.drop 9
    let (dsz, bs1) := readInt32 bs0
    let (dcards, bs2) := readCards dsz.toNat bs1
    let deckCards := List.replicate dsz.toNat defaultCard ++ dcards
    let (cols, bs3) := readColumns 7 bs2
    let (psz, bs4) := readInt32 bs3
    let (pcards, bs5) := readCards psz.toNat bs4
    let (res, _) := readCards 4 bs5
    (true, { g with deck := deckCards, columns := cols, pile := pcards,
                    reserveSlots := res })

/-! ## Reachability and card conservation -/

/-- The (suit, rank) identity of a card. -/
def cardPair (c : Card) : Nat × Nat := (c.suit, c.rank)

/-- The multiset of (suit, rank) pairs of a card list. -/
def pairsOf (l : List Card) : Multiset (Nat × Nat) := (l.map cardPair : List (Nat × Nat))

/-- The multiset of (suit, rank) pairs across deck, all columns, pile and
the valid reserve slots of a state. -/
def statePairs (g : GameState) : Multiset (Nat × Nat) :=
  pairsOf g.deck + pairsOf g.columns.flatten + pairsOf g.pile +
    pairsOf (g.reserveSlots.filter (fun c => c.valid))

/-- The canonical 52-card multiset: each suit/rank pair exactly once. -/
def canonicalPairs : Multiset (Nat × Nat) := pairsOf canonicalDeckList

/-- One successful mutation of the `Game` state, any operation, any
in-range arguments.  `reShuffle` (reached through `getDeck().reShuffle(getPile())`)
is relational because of the shuffle. -/
inductive Step : GameState → GameState → Prop
  | draw (g : GameState) :
      (drawCard g).1 = true → Step g (drawCard g).2
  | move (g : GameState) (fromCol toCol count : Nat) :
      fromCol < 7 → toCol < 7 →
      (moveCard fromCol toCol count g).1 = true →
      Step g (moveCard fromCol toCol count g).2
  | pileToCol (g : GameState) (toCol : Nat) :
      toCol < 7 →
      (moveFromPileToColumn toCol g).1 = true →
      Step g (moveFromPileToColumn toCol g).2
  | pileToRes (g : GameState) (slot : Nat) :
      slot < 4 →
      (moveFromPileToReserve slot g).1 = true →
      Step g (moveFromPileToReserve slot g).2
  | colToRes (g : GameState) (fromCol slot : Nat) :
      fromCol < 7 → slot < 4 →
      (moveFromColumnToReserve fromCol slot g).1 = true →
      Step g (moveFromColumnToReserve fromCol slot g).2
  | resToCol (g : GameState) (slot toCol : Nat) :
      slot < 4 → toCol < 7 →
      (moveFromReserveToColumn slot toCol g).1 = true →
      Step g (moveFromReserveToColumn slot toCol g).2
  | reshuffle (g : GameState) (l : List Card) :
      g.deck = [] → g.pile.Perm l →
      Step g { g with deck := l.map Card.flip, pile := [] }

/-- A state reachable from `start()` on some shuffled full deck by
successful operations. -/
def Reachable (g : GameState) : Prop :=
  ∃ d, canonicalDeckList.Perm d ∧ Relation.ReflTransGen Step (startGame d) g

/-- The conserving fragment of `Step`: foundation placements are required
to install a valid card into an empty slot, and a reserve card may leave
for a column only when it is a valid Ace.  Unrestricted play violates
conservation (see the counterexample below). -/
inductive StepC : GameState → GameState → Prop
  | draw (g : GameState) :
      (drawCard g).1 = true → StepC g (drawCard g).2
  | move (g : GameState) (fromCol toCol count : Nat) :
      fromCol < 7 → toCol < 7 →
      (moveCard fromCol toCol count g).1 = true →
      StepC g (moveCard fromCol toCol count g).2
  | pileToCol (g : GameState) (toCol : Nat) :
      toCol < 7 →
      (moveFromPileToColumn toCol g).1 = true →
      StepC g (moveFromPileToColumn toCol g).2
  | pileToRes (g : GameState) (slot : Nat) :
      slot < 4 →
      (g.reserveSlots.getD slot defaultCard).valid = false →
      (g.pile.getLastD defaultCard).valid = true →
      (moveFromPileToReserve slot g).1 = true →
      StepC g (moveFromPileToReserve slot g).2
  | colToRes (g : GameState) (fromCol slot : Nat) :
      fromCol < 7 → slot < 4 →
      (g.reserveSlots.getD slot defaultCard).valid = false →
      ((g.columns.getD fromCol []).getLastD defaultCard).valid = true →
      (moveFromColumnToReserve fromCol slot g).1 = true →
      StepC g (moveFromColumnToReserve fromCol slot g).2
  | resToCol (g : GameState) (slot toCol : Nat) :
      slot < 4 → toCol < 7 →
      (g.reserveSlots.getD slot defaultCard).valid = true →
      (g.reserveSlots.getD slot defaultCard).rank = 1 →
      (moveFromReserveToColumn slot toCol g).1 = true →
      StepC g (moveFromReserveToColumn slot toCol g).2
  | reshuffle (g : GameState) (l : List Card) :
      g.deck = [] → g.pile.Perm l →
      StepC g { g with deck := l.map Card.flip, pile := [] }

/-- A state reachable from `start()` using only the conserving fragment. -/
def ReachableC (g : GameState) : Prop :=
  ∃ d, canonicalDeckList.Perm d ∧ Relation.ReflTransGen StepC (startGame d) g

/-- The shuffled deck used for the conservation counterexample: the
canonical deck with positions 0 and 23 swapped (Ace of Hearts drawn
first after the deal) and positions 2 and 22 swapped (Three of Hearts
drawn second). -/
def deckForC2 : List Card :=
  (((canonicalDeckList.set 23 (mkCard 0 1)).set 0 (mkCard 1 11)).set 22
    (mkCard 0 3)).set 2 (mkCard 1 10)

/-- After the deal: draw the Ace of Hearts, place it on reserve 0, draw
the Three of Hearts, place it on reserve 0 — which silently discards the
Ace of Hearts from the tableau. -/
def stateForC2 : GameState :=
  (moveFromPileToReserve 0
    ((drawCard ((moveFromPileToReserve 0 ((drawCard (startGame deckForC2)).2)).2)).2)).2

/-- The shuffled deck for the reserve-monotonicity counterexample: the
canonical deck with the Three of Spades dealt as column 0 (position 51),
the Ace of Hearts at draw position 23 and the Two of Hearts at draw
position 22. -/
def deckForC5 : List Card :=
  (((((canonicalDeckList.set 51 (mkCard 3 3)).set 41 (mkCard 3 13)).set 23
    (mkCard 0 1)).set 0 (mkCard 1 11)).set 22 (mkCard 0 2)).set 1 (mkCard 1 10)

/-- Reach a state whose Hearts reserve holds the Two of Hearts: deal,
draw the Ace of Hearts, move it to reserve 0, draw the Two of Hearts,
move it to reserve 0. -/
def stateForC5 : GameState :=
  (moveFromPileToReserve 0
    ((drawCard ((moveFromPileToReserve 0 ((drawCard (startGame deckForC5)).2)).2)).2)).2

/-- Empty tableau whose pile holds only the face-up Ace of Hearts, all
reserve slots empty. -/
def stateAceOnPile : GameState :=
  { (initState []) with pile := [⟨0, 1, true, true⟩] }

/-- Tableau whose Hearts reserve holds the Ace of Hearts and whose pile
top is the face-up Three of Hearts. -/
def stateThreeOnPile : GameState :=
  { (initState []) with
    pile := [⟨0, 3, true, true⟩],
    reserveSlots := [⟨0, 1, true, true⟩, defaultCard, defaultCard, defaultCard] }

/-- Tableau whose Hearts reserve holds the Ace of Hearts and whose pile
top is the face-up Two of Hearts. -/
def stateTwoOnPile : GameState :=
  { (initState []) with
    pile := [⟨0, 2, true, true⟩],
    reserveSlots := [⟨0, 1, true, true⟩, defaultCard, defaultCard, defaultCard] }

/-- The rank sequence King down to Ace. -/
def kingToAceRanks : List Nat := [13, 12, 11, 10, 9, 8, 7, 6, 5, 4, 3, 2, 1]

/-- A finished column in the words of the claim: exactly 13 cards in
strict descending King-to-Ace rank order, every card face-up, adjacent
cards strictly alternating in colour. -/
def wonColumnSpec (col : List Card) : Prop :=
  col.map Card.rank = kingToAceRanks ∧
    (∀ c ∈ col, c.facingUp = true) ∧
    List.Chain' (fun a b => a.isRed ≠ b.isRed) col

instance wonColumnSpecDecidable (col : List Card) : Decidable (wonColumnSpec col) := by
  unfold wonColumnSpec
  infer_instance

/-- A pile holding a single face-down Five of Hearts (a card state the
claim quantifies over, since it says "for every pile"). -/
def faceDownPile : List Card := [⟨0, 5, false, true⟩]

/-- The landing rule in the words of the claim: the destination column is
empty and the moving card is a King, or the destination is non-empty, its
top card's colour differs from the moving card's, and the top's rank is
the moving card's rank plus one. -/
def landingClaim (moving : Card) (dest : List Card) : Prop :=
  (dest = [] ∧ moving.rank = 13) ∨
    (dest ≠ [] ∧ (dest.getLastD defaultCard).isRed ≠ moving.isRed ∧
      (dest.getLastD defaultCard).rank = moving.rank + 1)

/-! ## Reserve validity is never checked -/

/-- An invalid sentinel card that happens to carry King junk fields (the
C++ default constructor leaves suit and rank indeterminate, so any junk
is possible). -/
def sentinelKing : Card := ⟨0, 13, false, false⟩

/-- An otherwise empty tableau whose reserve 0 holds the invalid
sentinel with King junk rank. -/
def stateWithSentinel : GameState :=
  { (initState []) with
    reserveSlots := [sentinelKing, defaultCard, defaultCard, defaultCard] }

/-! ## Persistence -/

/-- A small tableau with a one-card deck, used to run the save/load round
trip. -/
def stateForC1 : GameState :=
  { deck := [mkCard 0 5], currentCard := defaultCard,
    columns := [[⟨2, 13, true, true⟩], [], [], [], [], [], []],
    pile := [⟨1, 7, true, true⟩],
    reserveSlots := [⟨0, 1, true, true⟩, defaultCard, defaultCard, defaultCard] }

/-! ### List helper lemmas -/

theorem getD_set_self {α : Type} (l : List α) (i : Nat) (y d : α) (h : i < l.length) :
    (l.set i y).getD i d = y := by
  simp [List.getD_eq_getElem?_getD, List.getElem?_set_self, h]

theorem getD_set_ne {α : Type} (l : List α) (i j : Nat) (y d : α) (h : j ≠ i) :
    (l.set j y).getD i d = l.getD i d := by
  simp [List.getD_eq_getElem?_getD, List.getElem?_set_ne h]

theorem set_getD_self {α : Type} (l : List α) (i : Nat) (d : α) (h : i < l.length) :
    l.set i (l.getD i d) = l := by
  induction l generalizing i with
  | nil => simp at h
  | cons a as ih =>
    cases i with
    | zero => simp [List.getD]
    | succ n =>
      simp only [List.length_cons, Nat.succ_lt_succ_iff] at h
      simp only [List.set]
      simpa [List.getD_eq_getElem?_getD] using ih n h

theorem dropLast_append_getLastD {α : Type} (l : List α) (d : α) (h : l ≠ []) :
    l.dropLast ++ [l.getLastD d] = l := by
  rw [List.getLastD_eq_getLast?, List.getLast?_eq_getLast l h]
  exact List.dropLast_append_getLast h

/-! ### Pair-multiset lemmas -/

theorem cardPair_flip (c : Card) : cardPair c.flip = cardPair c := rfl

theorem pairsOf_nil : pairsOf [] = 0 := rfl

theorem pairsOf_cons (c : Card) (l : List Card) :
    pairsOf (c :: l) = {cardPair c} + pairsOf l := rfl

theorem pairsOf_append (a b : List Card) : pairsOf (a ++ b) = pairsOf a + pairsOf b := by
  simp [pairsOf]

theorem pairsOf_perm {l l' : List Card} (h : l.Perm l') : pairsOf l = pairsOf l' := by
  exact Multiset.coe_eq_coe.mpr (h.map cardPair)

theorem pairsOf_map_flip (l : List Card) : pairsOf (l.map Card.flip) = pairsOf l := by
  simp [pairsOf, List.map_map]
  rfl

theorem pairsOf_revealTop (l : List Card) : pairsOf (revealTop l) = pairsOf l := by
  unfold revealTop
  cases h : l.getLast? with
  | none => rfl
  | some c =>
    by_cases hc : c.facingUp
    · simp [hc]
    · have hne : l ≠ [] := by
        intro he
        rw [he] at h
        simp at h
      have hlast : l.getLastD defaultCard = c := by
        rw [List.getLastD_eq_getLast?, h]
        rfl
      have hdec : l.dropLast ++ [c] = l := by
        rw [← hlast]
        exact dropLast_append_getLastD l defaultCard hne
      simp only [hc]
      calc pairsOf (l.dropLast ++ [c.flip])
          = pairsOf l.dropLast + pairsOf [c.flip] := pairsOf_append _ _
        _ = pairsOf l.dropLast + pairsOf [c] := by
            simp [pairsOf, cardPair_flip]
        _ = pairsOf (l.dropLast ++ [c]) := (pairsOf_append _ _).symm
        _ = pairsOf l := by rw [hdec]

theorem pairsOf_flatten_set (cols : List (List Card)) (i : Nat) (y : List Card)
    (h : i < cols.length) :
    pairsOf ((cols.set i y).flatten) = pairsOf y + pairsOf ((cols.set i []).flatten) := by
  induction cols generalizing i with
  | nil => simp at h
  | cons c cs ih =>
    cases i with
    | zero => simp [List.set, List.flatten_cons, pairsOf_append]
    | succ n =>
      simp only [List.length_cons, Nat.succ_lt_succ_iff] at h
      simp only [List.set, List.flatten_cons, pairsOf_append, ih n h]
      abel

theorem pairsOf_flatten_decomp (cols : List (List Card)) (i : Nat) (h : i < cols.length) :
    pairsOf cols.flatten = pairsOf (cols.getD i []) + pairsOf ((cols.set i []).flatten) := by
  conv_lhs => rw [← set_getD_self cols i [] h]
  exact pairsOf_flatten_set cols i (cols.getD i []) h

theorem pairsOf_filter_set (rs : List Card) (i : Nat) (c : Card) (h : i < rs.length) :
    pairsOf ((rs.set i c).filter (fun x => x.valid)) =
      pairsOf (if c.valid then [c] else []) +
        pairsOf ((rs.set i defaultCard).filter (fun x => x.valid)) := by
  induction rs generalizing i with
  | nil => simp at h
  | cons a as ih =>
    cases i with
    | zero =>
      by_cases hc : c.valid <;>
        simp [List.set, List.filter_cons, hc, defaultCard, pairsOf_cons, pairsOf_nil]
    | succ n =>
      simp only [List.length_cons, Nat.succ_lt_succ_iff] at h
      by_cases ha : a.valid
      · simp only [List.set, List.filter_cons, ha, if_true, pairsOf_cons, ih n h]
        abel
      · simp only [List.set, List.filter_cons, ha, if_false]
        exact ih n h

theorem pairsOf_filter_decomp (rs : List Card) (i : Nat) (h : i < rs.length) :
    pairsOf (rs.filter (fun x => x.valid)) =
      pairsOf (if (rs.getD i defaultCard).valid then [rs.getD i defaultCard] else []) +
        pairsOf ((rs.set i defaultCard).filter (fun x => x.valid)) := by
  conv_lhs => rw [← set_getD_self rs i defaultCard h]
  exact pairsOf_filter_set rs i (rs.getD i defaultCard) h

/-! ### Conservation of the pair multiset, operation by operation -/

theorem statePairs_drawCard (g : GameState) (h : (drawCard g).1 = true) :
    statePairs (drawCard g).2 = statePairs g := by
  simp only [drawCard] at h ⊢
  split_ifs at h ⊢ with h1
  dsimp only
  simp only [statePairs]
  have hdeck : pairsOf g.deck =
      pairsOf g.deck.dropLast + pairsOf [g.deck.getLastD defaultCard] := by
    conv_lhs => rw [← dropLast_append_getLastD g.deck defaultCard h1]
    exact pairsOf_append _ _
  rw [pairsOf_append, hdeck]
  simp only [pairsOf_cons, pairsOf_nil, cardPair_flip]
  abel

theorem statePairs_moveFromPileToColumn (g : GameState) (toCol : Nat)
    (ht : toCol < 7) (hwf : g.columns.length = 7)
    (h : (moveFromPileToColumn toCol g).1 = true) :
    statePairs (moveFromPileToColumn toCol g).2 = statePairs g := by
  simp only [moveFromPileToColumn] at h ⊢
  split_ifs at h ⊢ with h1 h2
  dsimp only
  simp only [statePairs]
  have htlen : toCol < g.columns.length := by omega
  rw [pairsOf_flatten_set _ _ _ htlen,
    pairsOf_flatten_decomp g.columns toCol htlen, pairsOf_append]
  have hpile : pairsOf g.pile =
      pairsOf g.pile.dropLast + pairsOf [g.pile.getLastD defaultCard] := by
    conv_lhs => rw [← dropLast_append_getLastD g.pile defaultCard h1]
    exact pairsOf_append _ _
  rw [hpile]
  abel

theorem statePairs_moveFromPileToReserve (g : GameState) (slot : Nat)
    (hs : slot < 4) (hwf : g.reserveSlots.length = 4)
    (hcur : (g.reserveSlots.getD slot defaultCard).valid = false)
    (hcard : (g.pile.getLastD defaultCard).valid = true)
    (h : (moveFromPileToReserve slot g).1 = true) :
    statePairs (moveFromPileToReserve slot g).2 = statePairs g := by
  simp only [moveFromPileToReserve] at h ⊢
  split_ifs at h ⊢ with h1 h2
  dsimp only
  simp only [statePairs]
  have hslen : slot < g.reserveSlots.length := by omega
  rw [pairsOf_filter_set _ _ _ hslen,
    pairsOf_filter_decomp g.reserveSlots slot hslen]
  have hpile : pairsOf g.pile =
      pairsOf g.pile.dropLast + pairsOf [g.pile.getLastD defaultCard] := by
    conv_lhs => rw [← dropLast_append_getLastD g.pile defaultCard h1]
    exact pairsOf_append _ _
  rw [hpile]
  simp only [hcard, hcur, if_true, if_false]
  abel

theorem statePairs_moveFromColumnToReserve (g : GameState) (fromCol slot : Nat)
    (hf : fromCol < 7) (hs : slot < 4)
    (hwfc : g.columns.length = 7) (hwfr : g.reserveSlots.length = 4)
    (hcur : (g.reserveSlots.getD slot defaultCard).valid = false)
    (hcard : ((g.columns.getD fromCol []).getLastD defaultCard).valid = true)
    (h : (moveFromColumnToReserve fromCol slot g).1 = true) :
    statePairs (moveFromColumnToReserve fromCol slot g).2 = statePairs g := by
  simp only [moveFromColumnToReserve] at h ⊢
  split_ifs at h ⊢ with h1 h2 h3
  dsimp only
  simp only [statePairs]
  have hflen : fromCol < g.columns.length := by omega
  have hslen : slot < g.reserveSlots.length := by omega
  rw [pairsOf_filter_set _ _ _ hslen,
    pairsOf_filter_decomp g.reserveSlots slot hslen,
    pairsOf_flatten_set _ _ _ hflen,
    pairsOf_flatten_decomp g.columns fromCol hflen,
    pairsOf_revealTop]
  have hcol : pairsOf (g.columns.getD fromCol []) =
      pairsOf (g.columns.getD fromCol []).dropLast +
        pairsOf [(g.columns.getD fromCol []).getLastD defaultCard] := by
    conv_lhs => rw [← dropLast_append_getLastD (g.columns.getD fromCol []) defaultCard h1]
    exact pairsOf_append _ _
  rw [hcol]
  simp only [hcard, hcur, if_true, if_false]
  abel

theorem statePairs_moveFromReserveToColumn (g : GameState) (slot toCol : Nat)
    (hs : slot < 4) (ht : toCol < 7)
    (hwfc : g.columns.length = 7) (hwfr : g.reserveSlots.length = 4)
    (hcur : (g.reserveSlots.getD slot defaultCard).valid = true)
    (hace : (g.reserveSlots.getD slot defaultCard).rank = 1)
    (h : (moveFromReserveToColumn slot toCol g).1 = true) :
    statePairs (moveFromReserveToColumn slot toCol g).2 = statePairs g := by
  simp only [moveFromReserveToColumn] at h ⊢
  split_ifs at h ⊢ with h1 h2
  · exact absurd hace h2
  · dsimp only
    simp only [statePairs]
    have htlen : toCol < g.columns.length := by omega
    have hslen : slot < g.reserveSlots.length := by omega
    rw [pairsOf_flatten_set _ _ _ htlen,
      pairsOf_flatten_decomp g.columns toCol htlen, pairsOf_append,
      pairsOf_filter_set _ _ _ hslen,
      pairsOf_filter_decomp g.reserveSlots slot hslen]
    simp only [hcur, if_true]
    simp only [show defaultCard.valid = false from rfl, if_false]
    abel

theorem statePairs_moveCard (g : GameState) (fromCol toCol count : Nat)
    (hf : fromCol < 7) (ht : toCol < 7) (hwf : g.columns.length = 7)
    (h : (moveCard fromCol toCol count g).1 = true) :
    statePairs (moveCard fromCol toCol count g).2 = statePairs g := by
  simp only [moveCard] at h ⊢
  split_ifs at h ⊢ with h1 h2 h3
  dsimp only
  simp only [statePairs]
  have hcnt : count ≤ (g.columns.getD fromCol []).length := by
    push_neg at h1
    exact h1.2
  have hmovlen : ((g.columns.getD fromCol []).drop
      ((g.columns.getD fromCol []).length - count)).length = count := by
    rw [List.length_drop]
    omega
  by_cases he : fromCol = toCol
  · subst he
    have hflen : fromCol < g.columns.length := by omega
    rw [getD_set_self _ _ _ _ (by omega)]
    have htake : ((g.columns.getD fromCol []) ++
          ((g.columns.getD fromCol []).drop ((g.columns.getD fromCol []).length - count))).take
            (((g.columns.getD fromCol []) ++
              ((g.columns.getD fromCol []).drop
                ((g.columns.getD fromCol []).length - count))).length - count) =
        g.columns.getD fromCol [] := by
      rw [List.length_append, hmovlen]
      have harith : (g.columns.getD fromCol []).length + count - count =
          (g.columns.getD fromCol []).length := by omega
      rw [harith]
      exact List.take_left _ _
    rw [htake, List.set_set]
    rw [pairsOf_flatten_set _ _ _ hflen, pairsOf_revealTop,
      pairsOf_flatten_decomp g.columns fromCol hflen]
  · have hflen : fromCol < g.columns.length := by omega
    have htlen : toCol < g.columns.length := by omega
    rw [getD_set_ne _ _ _ _ _ (fun hc => he hc.symm)]
    rw [pairsOf_flatten_set _ _ _ (by rw [List.length_set]; omega),
      List.set_comm _ _ _ (fun hc => he hc.symm),
      pairsOf_flatten_set _ _ _ (by rw [List.length_set]; omega),
      pairsOf_revealTop, pairsOf_append,
      pairsOf_flatten_decomp g.columns fromCol hflen,
      pairsOf_flatten_decomp (g.columns.set fromCol []) toCol (by rw [List.length_set]; omega),
      getD_set_ne _ _ _ _ _ he]
    have hsplit : pairsOf (g.columns.getD fromCol []) =
        pairsOf ((g.columns.getD fromCol []).take
            ((g.columns.getD fromCol []).length - count)) +
          pairsOf ((g.columns.getD fromCol []).drop
            ((g.columns.getD fromCol []).length - count)) := by
      conv_lhs => rw [← List.take_append_drop
        ((g.columns.getD fromCol []).length - count) (g.columns.getD fromCol [])]
      exact pairsOf_append _ _
    rw [hsplit]
    abel

/-! ### Length preservation -/

theorem lengths_drawCard (g : GameState) :
    (drawCard g).2.columns.length = g.columns.length ∧
      (drawCard g).2.reserveSlots.length = g.reserveSlots.length := by
  simp only [drawCard]
  split_ifs <;> simp

theorem lengths_moveCard (g : GameState) (fromCol toCol count : Nat) :
    (moveCard fromCol toCol count g).2.columns.length = g.columns.length ∧
      (moveCard fromCol toCol count g).2.reserveSlots.length = g.reserveSlots.length := by
  simp only [moveCard]
  split_ifs <;> simp [List.length_set]

theorem lengths_moveFromPileToColumn (g : GameState) (toCol : Nat) :
    (moveFromPileToColumn toCol g).2.columns.length = g.columns.length ∧
      (moveFromPileToColumn toCol g).2.reserveSlots.length = g.reserveSlots.length := by
  simp only [moveFromPileToColumn]
  split_ifs <;> simp [List.length_set]

theorem lengths_moveFromPileToReserve (g : GameState) (slot : Nat) :
    (moveFromPileToReserve slot g).2.columns.length = g.columns.length ∧
      (moveFromPileToReserve slot g).2.reserveSlots.length = g.reserveSlots.length := by
  simp only [moveFromPileToReserve]
  split_ifs <;> simp [List.length_set]

theorem lengths_moveFromColumnToReserve (g : GameState) (fromCol slot : Nat) :
    (moveFromColumnToReserve fromCol slot g).2.columns.length = g.columns.length ∧
      (moveFromColumnToReserve fromCol slot g).2.reserveSlots.length =
        g.reserveSlots.length := by
  simp only [moveFromColumnToReserve]
  split_ifs <;> simp [List.length_set]

theorem lengths_moveFromReserveToColumn (g : GameState) (slot toCol : Nat) :
    (moveFromReserveToColumn slot toCol g).2.columns.length = g.columns.length ∧
      (moveFromReserveToColumn slot toCol g).2.reserveSlots.length =
        g.reserveSlots.length := by
  simp only [moveFromReserveToColumn]
  split_ifs <;> simp [List.length_set]

/-! ### Dealing out the initial tableau -/

theorem statePairs_initState (d : List Card) : statePairs (initState d) = pairsOf d := by
  simp only [statePairs, initState]
  rw [show (List.replicate 7 ([] : List Card)).flatten = [] from rfl,
    show (List.replicate 4 defaultCard).filter (fun c => c.valid) = [] from rfl]
  simp [pairsOf_nil]

theorem drawToColumn_invariant (g : GameState) (i : Nat) (hne : g.deck ≠ [])
    (hi : i < g.columns.length) :
    statePairs (drawToColumn g i) = statePairs g ∧
      (drawToColumn g i).deck.length = g.deck.length - 1 ∧
      (drawToColumn g i).columns.length = g.columns.length ∧
      (drawToColumn g i).reserveSlots = g.reserveSlots := by
  refine ⟨?_, by simp [drawToColumn], by simp [drawToColumn, List.length_set], rfl⟩
  simp only [drawToColumn, statePairs]
  rw [pairsOf_flatten_set _ _ _ hi, pairsOf_flatten_decomp g.columns i hi, pairsOf_append]
  have hdeck : pairsOf g.deck =
      pairsOf g.deck.dropLast + pairsOf [g.deck.getLastD defaultCard] := by
    conv_lhs => rw [← dropLast_append_getLastD g.deck defaultCard hne]
    exact pairsOf_append _ _
  rw [hdeck]
  abel

theorem drawNToColumn_invariant (n : Nat) :
    ∀ g i, n ≤ g.deck.length → i < g.columns.length →
      statePairs (drawNToColumn g i n) = statePairs g ∧
        (drawNToColumn g i n).deck.length = g.deck.length - n ∧
        (drawNToColumn g i n).columns.length = g.columns.length ∧
        (drawNToColumn g i n).reserveSlots = g.reserveSlots := by
  induction n with
  | zero =>
    intro g i _ _
    refine ⟨rfl, ?_, rfl, rfl⟩
    show g.deck.length = g.deck.length - 0
    omega
  | succ m ih =>
    intro g i hn hi
    have hne : g.deck ≠ [] := by
      intro he
      rw [he] at hn
      simp at hn
    have hdef : drawNToColumn g i (m + 1) = drawNToColumn (drawToColumn g i) i m := rfl
    obtain ⟨p1, p2, p3, p4⟩ := drawToColumn_invariant g i hne hi
    obtain ⟨q1, q2, q3, q4⟩ := ih (drawToColumn g i) i (by omega) (by omega)
    rw [hdef]
    exact ⟨by rw [q1, p1], by omega, by omega, by rw [q4, p4]⟩

theorem flipTopOfColumn_invariant (g : GameState) (i : Nat) (hi : i < g.columns.length) :
    statePairs (flipTopOfColumn g i) = statePairs g ∧
      (flipTopOfColumn g i).deck = g.deck ∧
      (flipTopOfColumn g i).columns.length = g.columns.length ∧
      (flipTopOfColumn g i).reserveSlots = g.reserveSlots := by
  simp only [flipTopOfColumn]
  cases hL : (g.columns.getD i []).getLast? with
  | none => exact ⟨rfl, rfl, rfl, rfl⟩
  | some c =>
    refine ⟨?_, rfl, by simp [List.length_set], rfl⟩
    simp only [statePairs]
    rw [pairsOf_flatten_set _ _ _ hi, pairsOf_flatten_decomp g.columns i hi]
    have hne : g.columns.getD i [] ≠ [] := by
      intro he
      rw [he] at hL
      simp at hL
    have hlast : (g.columns.getD i []).getLastD defaultCard = c := by
      rw [List.getLastD_eq_getLast?, hL]
      rfl
    have hdec : (g.columns.getD i []).dropLast ++ [c] = g.columns.getD i [] := by
      rw [← hlast]
      exact dropLast_append_getLastD _ _ hne
    conv_rhs => rw [← hdec]
    rw [pairsOf_append, pairsOf_append]
    simp only [pairsOf_cons, pairsOf_nil, cardPair_flip]

theorem startStep_invariant (g : GameState) (i : Nat)
    (hn : i + 1 ≤ g.deck.length) (hi : i < g.columns.length) :
    statePairs (startStep g i) = statePairs g ∧
      (startStep g i).deck.length = g.deck.length - (i + 1) ∧
      (startStep g i).columns.length = g.columns.length ∧
      (startStep g i).reserveSlots = g.reserveSlots := by
  have hdef : startStep g i = flipTopOfColumn (drawNToColumn g i (i + 1)) i := rfl
  obtain ⟨p1, p2, p3, p4⟩ := drawNToColumn_invariant (i + 1) g i hn hi
  obtain ⟨q1, q2, q3, q4⟩ :=
    flipTopOfColumn_invariant (drawNToColumn g i (i + 1)) i (by omega)
  rw [hdef]
  refine ⟨by rw [q1, p1], ?_, by omega, by rw [q4, p4]⟩
  rw [q2]
  omega

theorem foldl_startStep_invariant (idxs : List Nat) :
    ∀ g : GameState, (∀ i ∈ idxs, i < g.columns.length) →
      (idxs.map (fun i => i + 1)).sum ≤ g.deck.length →
      statePairs (idxs.foldl startStep g) = statePairs g ∧
        (idxs.foldl startStep g).deck.length =
          g.deck.length - (idxs.map (fun i => i + 1)).sum ∧
        (idxs.foldl startStep g).columns.length = g.columns.length ∧
        (idxs.foldl startStep g).reserveSlots = g.reserveSlots := by
  induction idxs with
  | nil =>
    intro g _ _
    exact ⟨rfl, by simp, rfl, rfl⟩
  | cons i rest ih =>
    intro g hmem hsum
    simp only [List.map_cons, List.sum_cons] at hsum
    have hi : i < g.columns.length := hmem i (by simp)
    obtain ⟨p1, p2, p3, p4⟩ := startStep_invariant g i (by omega) hi
    obtain ⟨q1, q2, q3, q4⟩ := ih (startStep g i)
      (fun j hj => by rw [p3]; exact hmem j (by simp [hj]))
      (by omega)
    refine ⟨?_, ?_, ?_, ?_⟩
    · simp only [List.foldl_cons]
      rw [q1, p1]
    · simp only [List.foldl_cons, List.map_cons, List.sum_cons]
      omega
    · simp only [List.foldl_cons]
      omega
    · simp only [List.foldl_cons]
      rw [q4, p4]

theorem startGame_invariant (d : List Card) (hlen : d.length = 52) :
    statePairs (startGame d) = pairsOf d ∧
      (startGame d).columns.length = 7 ∧
      (startGame d).reserveSlots.length = 4 := by
  have hsum : ((List.range 7).map (fun i => i + 1)).sum = 28 := rfl
  obtain ⟨p1, p2, p3, p4⟩ := foldl_startStep_invariant (List.range 7) (initState d)
    (by
      intro i hi
      have : i < 7 := List.mem_range.mp hi
      simpa [initState] using this)
    (by
      rw [hsum]
      simp [initState, hlen])
  refine ⟨?_, ?_, ?_⟩
  · show statePairs ((List.range 7).foldl startStep (initState d)) = pairsOf d
    rw [p1, statePairs_initState]
  · show ((List.range 7).foldl startStep (initState d)).columns.length = 7
    rw [p3]
    simp [initState]
  · show ((List.range 7).foldl startStep (initState d)).reserveSlots.length = 4
    rw [p4]
    simp [initState]

/-! ### Conservation along the conserving fragment -/

theorem stepC_invariant (g g' : GameState) (h : StepC g g')
    (hwf : g.columns.length = 7 ∧ g.reserveSlots.length = 4) :
    (g'.columns.length = 7 ∧ g'.reserveSlots.length = 4) ∧
      statePairs g' = statePairs g := by
  cases h with
  | draw hsucc =>
    obtain ⟨l1, l2⟩ := lengths_drawCard g
    exact ⟨⟨by omega, by omega⟩, statePairs_drawCard g hsucc⟩
  | move fromCol toCol count hf ht hsucc =>
    obtain ⟨l1, l2⟩ := lengths_moveCard g fromCol toCol count
    exact ⟨⟨by omega, by omega⟩, statePairs_moveCard g fromCol toCol count hf ht hwf.1 hsucc⟩
  | pileToCol toCol ht hsucc =>
    obtain ⟨l1, l2⟩ := lengths_moveFromPileToColumn g toCol
    exact ⟨⟨by omega, by omega⟩,
      statePairs_moveFromPileToColumn g toCol ht hwf.1 hsucc⟩
  | pileToRes slot hs hcur hcard hsucc =>
    obtain ⟨l1, l2⟩ := lengths_moveFromPileToReserve g slot
    exact ⟨⟨by omega, by omega⟩,
      statePairs_moveFromPileToReserve g slot hs hwf.2 hcur hcard hsucc⟩
  | colToRes fromCol slot hf hs hcur hcard hsucc =>
    obtain ⟨l1, l2⟩ := lengths_moveFromColumnToReserve g fromCol slot
    exact ⟨⟨by omega, by omega⟩,
      statePairs_moveFromColumnToReserve g fromCol slot hf hs hwf.1 hwf.2 hcur hcard hsucc⟩
  | resToCol slot toCol hs ht hcur hace hsucc =>
    obtain ⟨l1, l2⟩ := lengths_moveFromReserveToColumn g slot toCol
    exact ⟨⟨by omega, by omega⟩,
      statePairs_moveFromReserveToColumn g slot toCol hs ht hwf.1 hwf.2 hcur hace hsucc⟩
  | reshuffle l hdeck hperm =>
    refine ⟨⟨hwf.1, hwf.2⟩, ?_⟩
    simp only [statePairs]
    rw [pairsOf_map_flip, ← pairsOf_perm hperm, hdeck]
    simp only [pairsOf_nil]
    abel

theorem canonicalDeckList_length : canonicalDeckList.length = 52 := by decide

/-- C2, counterexample: a state reachable from `start()` by ordinary
`drawCard` / `moveFromPileToReserve` play whose (suit, rank) multiset is
not the canonical 52-card set — placing the Three of Hearts on the
occupied Hearts reserve overwrote the Ace of Hearts, which vanishes from
deck ∪ columns ∪ pile ∪ valid reserves. -/
theorem C2_conservation_cex :
    Reachable stateForC2 ∧ statePairs stateForC2 ≠ canonicalPairs := by
  constructor
  · refine ⟨deckForC2, by decide, ?_⟩
    exact Relation.ReflTransGen.tail
      (Relation.ReflTransGen.tail
        (Relation.ReflTransGen.tail
          (Relation.ReflTransGen.tail Relation.ReflTransGen.refl
            (Step.draw _ (by decide)))
          (Step.pileToRes _ 0 (by decide) (by decide)))
        (Step.draw _ (by decide)))
      (Step.pileToRes _ 0 (by decide) (by decide))
  · decide

/-- C2 (amended): the multiset of (suit, rank) pairs across deck, columns,
pile and valid reserve slots equals the canonical 52-card set for every
state reachable from `start()` by the conserving fragment of the
operations — `drawCard`, `moveCard`, `moveFromPileToColumn`, `reShuffle`,
foundation placements of a valid card into an *empty* reserve slot, and
`moveFromReserveToColumn` of a valid Ace.  (Unrestricted play is not
conserving: a placement onto an occupied slot discards the previous
occupant, and a non-Ace `moveFromReserveToColumn` mints a synthetic
lower card.) -/
theorem C2_conservation_conservingOps (g : GameState) (h : ReachableC g) :
    statePairs g = canonicalPairs := by
  obtain ⟨d, hperm, hreach⟩ := h
  have hlen : d.length = 52 := by
    rw [← hperm.length_eq]
    exact canonicalDeckList_length
  obtain ⟨hpairs, hc, hr⟩ := startGame_invariant d hlen
  have hcanon : pairsOf d = canonicalPairs := (pairsOf_perm hperm).symm
  have main : ∀ x, Relation.ReflTransGen StepC (startGame d) x →
      (x.columns.length = 7 ∧ x.reserveSlots.length = 4) ∧
        statePairs x = canonicalPairs := by
    intro x hx
    induction hx with
    | refl => exact ⟨⟨hc, hr⟩, by rw [hpairs, hcanon]⟩
    | tail hab hbc ih =>
      obtain ⟨hwfb, hpb⟩ := ih
      obtain ⟨hwfc, hpc⟩ := stepC_invariant _ _ hbc hwfb
      exact ⟨hwfc, by rw [hpc, hpb]⟩
  exact (main g hreach).2

/-- Witness for C2 (amended): the freshly dealt tableau is reachable and
its pair multiset is exactly the canonical set. -/
theorem C2_conservation_witness :
    ReachableC (startGame canonicalDeckList) ∧
      statePairs (startGame canonicalDeckList) = canonicalPairs := by
  have hreach : ReachableC (startGame canonicalDeckList) :=
    ⟨canonicalDeckList, List.Perm.refl _, Relation.ReflTransGen.refl⟩
  exact ⟨hreach, C2_conservation_conservingOps _ hreach⟩

/-- C5, counterexample: from a reachable state whose reserve 0 holds the
Two of Hearts, a successful `moveFromReserveToColumn` (the Two lands on
the Three of Spades in column 0) leaves the slot still occupied by a
valid card — the synthetic face-up Ace of Hearts — of *strictly smaller*
rank, so a reserve occupant's rank does not increase monotonically while
the slot stays occupied. -/
theorem C5_reserve_rank_decreases :
    Reachable stateForC5 ∧
      Step stateForC5 (moveFromReserveToColumn 0 0 stateForC5).2 ∧
      (stateForC5.reserveSlots.getD 0 defaultCard).valid = true ∧
      ((moveFromReserveToColumn 0 0 stateForC5).2.reserveSlots.getD 0
        defaultCard).valid = true ∧
      ((moveFromReserveToColumn 0 0 stateForC5).2.reserveSlots.getD 0
          defaultCard).rank <
        (stateForC5.reserveSlots.getD 0 defaultCard).rank := by
  refine ⟨⟨deckForC5, by decide, ?_⟩,
    Step.resToCol _ 0 0 (by decide) (by decide) (by decide), by decide, by decide,
    by decide⟩
  exact Relation.ReflTransGen.tail
    (Relation.ReflTransGen.tail
      (Relation.ReflTransGen.tail
        (Relation.ReflTransGen.tail Relation.ReflTransGen.refl
          (Step.draw _ (by decide)))
        (Step.pileToRes _ 0 (by decide) (by decide)))
      (Step.draw _ (by decide)))
    (Step.pileToRes _ 0 (by decide) (by decide))

/-- C5 (amended): each successful foundation *placement*
(`moveFromPileToReserve`, `moveFromColumnToReserve`) installs into
`reserves[slot]` a card of suit `slot` whose rank is strictly greater
than the previous occupant's when the slot was occupied, and is the Ace
when it was empty; but a successful `moveFromReserveToColumn` of a
non-Ace refills the slot with a valid card of the *same suit and one
rank lower* (byte-wrapped `rank - 1`), so the occupant's rank can
decrease while the slot remains occupied. -/
theorem C5_reserve_monotonic_amended :
    (∀ g : GameState, ∀ slot : Nat, slot < 4 → g.reserveSlots.length = 4 →
      (moveFromPileToReserve slot g).1 = true →
      ((moveFromPileToReserve slot g).2.reserveSlots.getD slot defaultCard).suit = slot ∧
        ((g.reserveSlots.getD slot defaultCard).valid = true →
          (g.reserveSlots.getD slot defaultCard).rank <
            ((moveFromPileToReserve slot g).2.reserveSlots.getD slot defaultCard).rank) ∧
        ((g.reserveSlots.getD slot defaultCard).valid = false →
          ((moveFromPileToReserve slot g).2.reserveSlots.getD slot defaultCard).rank
            = 1)) ∧
    (∀ g : GameState, ∀ fromCol slot : Nat, slot < 4 → g.reserveSlots.length = 4 →
      (moveFromColumnToReserve fromCol slot g).1 = true →
      ((moveFromColumnToReserve fromCol slot g).2.reserveSlots.getD slot
          defaultCard).suit = slot ∧
        ((g.reserveSlots.getD slot defaultCard).valid = true →
          (g.reserveSlots.getD slot defaultCard).rank <
            ((moveFromColumnToReserve fromCol slot g).2.reserveSlots.getD slot
              defaultCard).rank) ∧
        ((g.reserveSlots.getD slot defaultCard).valid = false →
          ((moveFromColumnToReserve fromCol slot g).2.reserveSlots.getD slot
            defaultCard).rank = 1)) ∧
    (∀ g : GameState, ∀ slot toCol : Nat, slot < 4 → g.reserveSlots.length = 4 →
      (moveFromReserveToColumn slot toCol g).1 = true →
      (g.reserveSlots.getD slot defaultCard).rank ≠ 1 →
      ((moveFromReserveToColumn slot toCol g).2.reserveSlots.getD slot
          defaultCard).suit = (g.reserveSlots.getD slot defaultCard).suit ∧
        ((moveFromReserveToColumn slot toCol g).2.reserveSlots.getD slot
          defaultCard).valid = true ∧
        ((moveFromReserveToColumn slot toCol g).2.reserveSlots.getD slot
            defaultCard).rank =
          ((g.reserveSlots.getD slot defaultCard).rank + 255) % 256) := by
  refine ⟨?_, ?_, ?_⟩
  · intro g slot hs hlen h
    simp only [moveFromPileToReserve] at h ⊢
    split_ifs at h ⊢ with h1 h2
    rw [getD_set_self _ _ _ _ (by omega)]
    simp only [reserveAccepts, Bool.or_eq_true, Bool.and_eq_true, Bool.not_eq_true,
      beq_iff_eq, decide_eq_true_eq] at h2
    rcases h2 with ⟨⟨hv, hr⟩, hsuit⟩ | ⟨⟨hv, hr⟩, hsuit⟩
    · exact ⟨hsuit, fun hval => by rw [hval] at hv; exact absurd hv (by decide),
        fun _ => hr⟩
    · exact ⟨hsuit, fun _ => hr,
        fun hinval => by rw [hinval] at hv; exact absurd hv (by decide)⟩
  · intro g fromCol slot hs hlen h
    simp only [moveFromColumnToReserve] at h ⊢
    split_ifs at h ⊢ with h1 h2 h3
    rw [getD_set_self _ _ _ _ (by omega)]
    simp only [reserveAccepts, Bool.or_eq_true, Bool.and_eq_true, Bool.not_eq_true,
      beq_iff_eq, decide_eq_true_eq] at h3
    rcases h3 with ⟨⟨hv, hr⟩, hsuit⟩ | ⟨⟨hv, hr⟩, hsuit⟩
    · exact ⟨hsuit, fun hval => by rw [hval] at hv; exact absurd hv (by decide),
        fun _ => hr⟩
    · exact ⟨hsuit, fun _ => hr,
        fun hinval => by rw [hinval] at hv; exact absurd hv (by decide)⟩
  · intro g slot toCol hs hlen h hne
    simp only [moveFromReserveToColumn] at h ⊢
    split_ifs at h ⊢ with h1
    rw [getD_set_self _ _ _ _ (by omega)]
    exact ⟨rfl, rfl, rfl⟩

/-- Witness for C5 (amended): placing the Ace of Hearts from the pile
into the empty Hearts reserve of an otherwise empty tableau yields an
occupant of suit 0 and rank 1. -/
theorem C5_reserve_monotonic_witness :
    (((moveFromPileToReserve 0
        { (initState []) with pile := [⟨0, 1, true, true⟩] }).2.reserveSlots.getD 0
      defaultCard).suit = 0) ∧
    (((moveFromPileToReserve 0
        { (initState []) with pile := [⟨0, 1, true, true⟩] }).2.reserveSlots.getD 0
      defaultCard).rank = 1) := by
  have h := C5_reserve_monotonic_amended.1
    { (initState []) with pile := [⟨0, 1, true, true⟩] } 0
    (by decide) (by decide) (by decide)
  exact ⟨h.1, h.2.2 (by decide)⟩

/-- C3, counterexample: with the Ace of Hearts in reserve 0 and the Three
of Hearts on top of the pile, `moveFromPileToReserve(0)` *succeeds* (the
slot then holds the Three), because the foundation test accepts any
strictly greater rank of the matching suit — the claim says this move
fails with a rank gap. -/
theorem C3_three_of_hearts_accepted :
    (moveFromPileToReserve 0 stateThreeOnPile).1 = true ∧
      (moveFromPileToReserve 0 stateThreeOnPile).2.reserveSlots.getD 0 defaultCard =
        ⟨0, 3, true, true⟩ := by
  decide

/-- C3 (amended): moving the Ace of Hearts from the pile into the empty
reserve 0 succeeds and the slot then holds the Ace of Hearts; with the
Ace in the slot, the Two of Hearts is accepted, and the Three of Hearts
is accepted as well (the rule is strictly-greater rank of the matching
suit, not rank-plus-one). -/
theorem C3_foundation_scenario_amended :
    ((moveFromPileToReserve 0 stateAceOnPile).1 = true ∧
      (moveFromPileToReserve 0 stateAceOnPile).2.reserveSlots.getD 0 defaultCard =
        ⟨0, 1, true, true⟩ ∧
      (moveFromPileToReserve 0 stateAceOnPile).2.pile = []) ∧
    ((moveFromPileToReserve 0 stateTwoOnPile).1 = true ∧
      (moveFromPileToReserve 0 stateTwoOnPile).2.reserveSlots.getD 0 defaultCard =
        ⟨0, 2, true, true⟩) ∧
    ((moveFromPileToReserve 0 stateThreeOnPile).1 = true) := by
  decide

theorem getD_eq_getElem {α : Type} (l : List α) (i : Nat) (d : α) (h : i < l.length) :
    l.getD i d = l[i] := by
  rw [List.getD_eq_getElem?_getD, List.getElem?_eq_getElem h]
  rfl

theorem countP_range_getD (cols : List (List Card)) (n : Nat)
    (q : List Card → Bool) (h : cols.length = n) :
    (List.range n).countP (fun i => q (cols.getD i [])) = cols.countP q := by
  induction cols generalizing n with
  | nil =>
    subst h
    rfl
  | cons c cs ih =>
    subst h
    simp only [List.length_cons]
    rw [List.range_succ_eq_map, List.countP_cons, List.countP_map, List.countP_cons]
    have harg : ((fun i => q ((c :: cs).getD i [])) ∘ Nat.succ) =
        fun i => q (cs.getD i []) := rfl
    rw [harg, ih cs.length rfl]
    simp [List.getD_cons_zero]

theorem kingToAceRanks_getD : ∀ j, j < 13 → kingToAceRanks.getD j 0 = 13 - j := by
  decide

theorem columnSetB_iff (col : List Card) : columnSetB col = true ↔ wonColumnSpec col := by
  unfold columnSetB wonColumnSpec
  simp only [Bool.and_eq_true, beq_iff_eq, List.all_eq_true, List.mem_range,
    Bool.or_eq_true, Bool.not_eq_true, beq_eq_false_iff_ne, ne_eq]
  constructor
  · rintro ⟨hlen, hall⟩
    have hrank : ∀ j, (hj : j < 13) → (col.getD j defaultCard).rank = 13 - j :=
      fun j hj => ((hall j hj).1).1
    have hup : ∀ j, (hj : j < 13) → (col.getD j defaultCard).facingUp = true :=
      fun j hj => ((hall j hj).1).2
    have halt : ∀ j, (hj : j < 13) → j ≠ 0 →
        ¬(col.getD j defaultCard).isRed = (col.getD (j - 1) defaultCard).isRed := by
      intro j hj hj0
      rcases (hall j hj).2 with h0 | hcol
      · exact absurd h0 hj0
      · exact by simpa using hcol
    refine ⟨?_, ?_, ?_⟩
    · apply List.ext_getElem
      · rw [List.length_map, hlen]
        rfl
      · intro i h1 h2
        rw [List.getElem_map]
        have hi13 : i < 13 := by
          simp [hlen] at h1
          exact h1
        rw [← getD_eq_getElem col i defaultCard (by omega),
          ← getD_eq_getElem kingToAceRanks i 0 h2]
        rw [hrank i hi13, kingToAceRanks_getD i hi13]
    · intro c hc
      obtain ⟨i, hilt, hget⟩ := List.mem_iff_getElem.mp hc
      rw [← hget, ← getD_eq_getElem col i defaultCard hilt]
      exact hup i (by omega)
    · rw [List.chain'_iff_get]
      intro i hi
      have hi12 : i < 12 := by omega
      have h1 : col.get ⟨i, by omega⟩ = col.getD i defaultCard := by
        rw [getD_eq_getElem col i defaultCard (by omega)]
        rfl
      have h2 : col.get ⟨i + 1, by omega⟩ = col.getD (i + 1) defaultCard := by
        rw [getD_eq_getElem col (i + 1) defaultCard (by omega)]
        rfl
      rw [h1, h2]
      intro heq
      exact halt (i + 1) (by omega) (by omega) (by simpa using heq.symm)
  · rintro ⟨hmap, hup, hchain⟩
    have hlen : col.length = 13 := by
      have := congrArg List.length hmap
      simpa using this
    refine ⟨hlen, ?_⟩
    intro j hj
    have hrank : (col.getD j defaultCard).rank = 13 - j := by
      have hmapj : (col.map Card.rank).getD j 0 = kingToAceRanks.getD j 0 := by
        rw [hmap]
      rw [kingToAceRanks_getD j hj] at hmapj
      rw [← hmapj, getD_eq_getElem _ j 0 (by simp [hlen]; omega), List.getElem_map,
        getD_eq_getElem col j defaultCard (by omega)]
    have hupj : (col.getD j defaultCard).facingUp = true := by
      apply hup
      rw [getD_eq_getElem col j defaultCard (by omega)]
      exact List.getElem_mem _
    refine ⟨⟨hrank, hupj⟩, ?_⟩
    cases j with
    | zero => exact Or.inl rfl
    | succ i =>
      refine Or.inr ?_
      have hcg := List.chain'_iff_get.mp hchain i (by omega)
      have h1 : col.get ⟨i, by omega⟩ = col.getD i defaultCard := by
        rw [getD_eq_getElem col i defaultCard (by omega)]
        rfl
      have h2 : col.get ⟨i + 1, by omega⟩ = col.getD (i + 1) defaultCard := by
        rw [getD_eq_getElem col (i + 1) defaultCard (by omega)]
        rfl
      rw [h1, h2] at hcg
      have hgoal : (col.getD (i + 1) defaultCard).isRed ≠ (col.getD i defaultCard).isRed :=
        fun heq => hcg heq.symm
      simpa [List.getD_eq_getElem?_getD] using hgoal

/-- C4: `isGameWon` returns true exactly when 4 of the seven columns each
hold 13 cards in strict descending King-to-Ace order, all face-up, with
adjacent colours strictly alternating. -/
theorem C4_isGameWon_iff (g : GameState) (hlen : g.columns.length = 7) :
    isGameWon g = true ↔
      g.columns.countP (fun col => decide (wonColumnSpec col)) = 4 := by
  unfold isGameWon
  rw [beq_iff_eq, countP_range_getD g.columns 7 columnSetB hlen]
  have hcong : ∀ col ∈ g.columns,
      (columnSetB col = true ↔ decide (wonColumnSpec col) = true) := by
    intro col _
    rw [columnSetB_iff col, decide_eq_true_eq]
  rw [List.countP_congr hcong]

/-- Witness for C4: on the freshly constructed empty tableau (seven empty
columns) the equivalence holds and both sides are false. -/
theorem C4_isGameWon_witness :
    (isGameWon (initState []) = true ↔
      (initState []).columns.countP (fun col => decide (wonColumnSpec col)) = 4) ∧
      isGameWon (initState []) = false := by
  exact ⟨C4_isGameWon_iff (initState []) (by decide), by decide⟩

/-- C7, counterexample: `Deck::reShuffle` *toggles* the facing of every
consumed card rather than setting it face-down, so recycling a pile that
contains a face-down card puts that card into the deck face-up — the
claim says every consumed card ends up face-down. -/
theorem C7_reshuffle_facedown_cex :
    reShuffle [] faceDownPile ([⟨0, 5, true, true⟩], []) ∧
      (∀ res : List Card × List Card, reShuffle [] faceDownPile res →
        res.1 = [⟨0, 5, true, true⟩] ∧ ¬(∀ c ∈ res.1, c.facingUp = false)) := by
  constructor
  · exact ⟨rfl, [⟨0, 5, false, true⟩], List.Perm.refl _, rfl⟩
  · rintro res ⟨-, l, hperm, rfl⟩
    have hl : l = [⟨0, 5, false, true⟩] := (List.singleton_perm.mp hperm).symm
    subst hl
    constructor
    · rfl
    · intro hall
      have := hall ⟨0, 5, true, true⟩ (by simp [Card.flip])
      simp at this

/-- C7 (amended): with the deck empty, `reShuffle` leaves the pile empty
and the deck becomes a permutation of the pile with every card *flipped*
(face-up becomes face-down and vice versa); in particular when every pile
card was face-up — the normal-play situation — every deck card ends up
face-down. -/
theorem C7_reshuffle_amended (pile : List Card) (res : List Card × List Card)
    (h : reShuffle [] pile res) :
    res.2 = [] ∧ res.1.Perm (pile.map Card.flip) ∧
      ((∀ c ∈ pile, c.facingUp = true) → ∀ c ∈ res.1, c.facingUp = false) := by
  obtain ⟨-, l, hperm, heq⟩ := h
  subst heq
  refine ⟨rfl, (hperm.map Card.flip).symm, ?_⟩
  intro hup c hc
  obtain ⟨a, ha, rfl⟩ := List.mem_map.mp hc
  have hmem : a ∈ pile := hperm.symm.subset ha
  have hfa := hup a hmem
  simp [Card.flip, hfa]

/-- Witness for C7 (amended): recycling a pile holding the single face-up
Five of Hearts yields an empty pile and the face-down Five of Hearts. -/
theorem C7_reshuffle_witness :
    (([(⟨0, 5, false, true⟩ : Card)], ([] : List Card)) : List Card × List Card).2 = [] ∧
      [(⟨0, 5, false, true⟩ : Card)].Perm
        ([(⟨0, 5, true, true⟩ : Card)].map Card.flip) ∧
      ((∀ c ∈ [(⟨0, 5, true, true⟩ : Card)], c.facingUp = true) →
        ∀ c ∈ [(⟨0, 5, false, true⟩ : Card)], c.facingUp = false) :=
  C7_reshuffle_amended [⟨0, 5, true, true⟩] ([⟨0, 5, false, true⟩], [])
    ⟨rfl, [⟨0, 5, true, true⟩], List.Perm.refl _, rfl⟩

/-! ## Landing rule -/

theorem bool_eq_true_of_ne_false {b : Bool} (h : ¬b = false) : b = true := by
  cases b
  · exact absurd rfl h
  · rfl

theorem landingB_iff (moving : Card) (dest : List Card) :
    landingB moving dest = true ↔ landingClaim moving dest := by
  unfold landingB landingClaim
  by_cases h : dest = []
  · simp [h]
  · simp only [h, if_false, Bool.and_eq_true, Bool.not_eq_true', beq_eq_false_iff_ne,
      beq_iff_eq, ne_eq, false_and, false_or, not_false_eq_true, true_and]

/-- `Game::moveFromReserveToColumn` returns exactly the landing test of
the stored slot card against the destination column: the success bit
never inspects the slot's validity flag nor the argument bounds. -/
theorem moveFromReserveToColumn_fst (g : GameState) (slot toCol : Nat) :
    (moveFromReserveToColumn slot toCol g).1 =
      landingB (g.reserveSlots.getD slot defaultCard) (g.columns.getD toCol []) := by
  simp only [moveFromReserveToColumn]
  split_ifs with h1 h2
  · exact h1.symm
  · exact (bool_eq_true_of_ne_false h1).symm
  · exact (bool_eq_true_of_ne_false h1).symm

/-- C8: under the stated preconditions (positive in-range count with a
face-up run start for `moveCard`; a non-empty pile for
`moveFromPileToColumn`; nothing for `moveFromReserveToColumn`), each of
the three column-landing operations succeeds exactly when the claim's
landing rule holds for the moving card and the destination column. -/
theorem C8_landing_rule :
    (∀ g : GameState, ∀ fromCol toCol count : Nat,
      count ≠ 0 → count ≤ (g.columns.getD fromCol []).length →
      ((g.columns.getD fromCol []).getD
        ((g.columns.getD fromCol []).length - count) defaultCard).facingUp = true →
      ((moveCard fromCol toCol count g).1 = true ↔
        landingClaim
          ((g.columns.getD fromCol []).getD
            ((g.columns.getD fromCol []).length - count) defaultCard)
          (g.columns.getD toCol []))) ∧
    (∀ g : GameState, ∀ toCol : Nat, g.pile ≠ [] →
      ((moveFromPileToColumn toCol g).1 = true ↔
        landingClaim (g.pile.getLastD defaultCard) (g.columns.getD toCol []))) ∧
    (∀ g : GameState, ∀ slot toCol : Nat,
      ((moveFromReserveToColumn slot toCol g).1 = true ↔
        landingClaim (g.reserveSlots.getD slot defaultCard)
          (g.columns.getD toCol []))) := by
  refine ⟨?_, ?_, ?_⟩
  · intro g fromCol toCol count hc0 hcle hface
    simp only [moveCard]
    split_ifs with h1 h2 h3
    · exact absurd h1 (by push_neg; exact ⟨hc0, by omega⟩)
    · rw [hface] at h2
      exact absurd h2 (by decide)
    · constructor
      · intro hfalse
        exact absurd hfalse (by decide)
      · intro hcl
        rw [← landingB_iff] at hcl
        rw [hcl] at h3
        exact absurd h3 (by decide)
    · exact ⟨fun _ => (landingB_iff _ _).mp (bool_eq_true_of_ne_false h3), fun _ => rfl⟩
  · intro g toCol hp
    simp only [moveFromPileToColumn]
    split_ifs with h1 h2
    · exact absurd h1 hp
    · constructor
      · intro hfalse
        exact absurd hfalse (by decide)
      · intro hcl
        rw [← landingB_iff] at hcl
        rw [hcl] at h2
        exact absurd h2 (by decide)
    · exact ⟨fun _ => (landingB_iff _ _).mp (bool_eq_true_of_ne_false h2), fun _ => rfl⟩
  · intro g slot toCol
    rw [moveFromReserveToColumn_fst g slot toCol]
    exact landingB_iff _ _

/-- Witness for C8: in an empty tableau with the King of Spades on the
pile, `moveFromPileToColumn 0` succeeds onto the empty column 0, matching
the claim's landing rule. -/
theorem C8_landing_rule_witness :
    ({ (initState []) with pile := [⟨3, 13, true, true⟩] } : GameState).pile ≠ [] ∧
      ((moveFromPileToColumn 0
          { (initState []) with pile := [⟨3, 13, true, true⟩] }).1 = true ↔
        landingClaim
          (({ (initState []) with pile := [⟨3, 13, true, true⟩] } :
            GameState).pile.getLastD defaultCard)
          (({ (initState []) with pile := [⟨3, 13, true, true⟩] } :
            GameState).columns.getD 0 [])) := by
  refine ⟨by decide, ?_⟩
  exact C8_landing_rule.2.1 { (initState []) with pile := [⟨3, 13, true, true⟩] } 0
    (by decide)

/-! ## Reveal invariant -/

theorem revealTop_getLastD (l : List Card) (h : l ≠ []) :
    ((revealTop l).getLastD defaultCard).facingUp = true := by
  unfold revealTop
  cases hL : l.getLast? with
  | none => exact absurd (List.getLast?_eq_none_iff.mp hL) h
  | some c =>
    by_cases hc : c.facingUp
    · simp only [hc, if_true]
      rw [List.getLastD_eq_getLast?, hL]
      exact hc
    · dsimp only
      rw [if_neg (by simp [hc])]
      rw [List.getLastD_eq_getLast?, List.getLast?_concat]
      simp [Card.flip, hc]

theorem revealTop_ne_nil (l : List Card) (h : l ≠ []) : revealTop l ≠ [] := by
  unfold revealTop
  cases hL : l.getLast? with
  | none => exact h
  | some c =>
    by_cases hc : c.facingUp
    · simp only [hc, if_true]
      exact h
    · dsimp only
      rw [if_neg (by simp [hc])]
      simp

/-- C9: after a successful `moveCard` or `moveFromColumnToReserve`, if the
source column is non-empty its new top card is face-up (the operations
flip a face-down exposed top). -/
theorem C9_reveal_invariant :
    (∀ g : GameState, ∀ fromCol toCol count : Nat,
      fromCol < 7 → g.columns.length = 7 →
      (moveCard fromCol toCol count g).1 = true →
      (moveCard fromCol toCol count g).2.columns.getD fromCol [] ≠ [] →
      (((moveCard fromCol toCol count g).2.columns.getD fromCol []).getLastD
        defaultCard).facingUp = true) ∧
    (∀ g : GameState, ∀ fromCol slot : Nat,
      fromCol < 7 → g.columns.length = 7 →
      (moveFromColumnToReserve fromCol slot g).1 = true →
      (moveFromColumnToReserve fromCol slot g).2.columns.getD fromCol [] ≠ [] →
      (((moveFromColumnToReserve fromCol slot g).2.columns.getD fromCol
        []).getLastD defaultCard).facingUp = true) := by
  constructor
  · intro g fromCol toCol count hf hwf hsucc hne
    simp only [moveCard] at hsucc hne ⊢
    split_ifs at hsucc hne ⊢ with h1 h2 h3
    dsimp only at hne ⊢
    rw [getD_set_self _ _ _ _ (by rw [List.length_set]; omega)] at hne ⊢
    apply revealTop_getLastD
    intro hX
    rw [hX] at hne
    exact hne rfl
  · intro g fromCol slot hf hwf hsucc hne
    simp only [moveFromColumnToReserve] at hsucc hne ⊢
    split_ifs at hsucc hne ⊢ with h1 h2 h3
    dsimp only at hne ⊢
    rw [getD_set_self _ _ _ _ (by omega)] at hne ⊢
    apply revealTop_getLastD
    intro hX
    rw [hX] at hne
    exact hne rfl

/-- Witness for C9: moving the lone Queen of Hearts from column 0 (which
sits on a face-down King underneath) onto the King of Spades in column 1
flips the newly exposed top of column 0 face-up. -/
theorem C9_reveal_invariant_witness :
    (moveCard 0 1 1
      { (initState []) with
        columns := [[⟨2, 13, false, true⟩, ⟨0, 12, true, true⟩],
          [⟨3, 13, true, true⟩], [], [], [], [], []] }).1 = true ∧
      (((moveCard 0 1 1
        { (initState []) with
          columns := [[⟨2, 13, false, true⟩, ⟨0, 12, true, true⟩],
            [⟨3, 13, true, true⟩], [], [], [], [], []] }).2.columns.getD 0
        []).getLastD defaultCard).facingUp = true := by
  refine ⟨by decide, ?_⟩
  exact C9_reveal_invariant.1
    { (initState []) with
      columns := [[⟨2, 13, false, true⟩, ⟨0, 12, true, true⟩],
        [⟨3, 13, true, true⟩], [], [], [], [], []] } 0 1 1
    (by decide) (by decide) (by decide) (by decide)

/-- C10: `moveFromReserveToColumn` never inspects the slot's validity
flag — its success bit is exactly the landing test of the stored card
(so an empty slot never makes it return false) — and with an invalid
sentinel stored, the operation can succeed and push that invalid sentinel
onto a column. -/
theorem C10_reserve_no_validity_check :
    (∀ g : GameState, ∀ slot toCol : Nat,
      (moveFromReserveToColumn slot toCol g).1 =
        landingB (g.reserveSlots.getD slot defaultCard) (g.columns.getD toCol [])) ∧
    ((moveFromReserveToColumn 0 0 stateWithSentinel).1 = true ∧
      (moveFromReserveToColumn 0 0 stateWithSentinel).2.columns.getD 0 [] =
        [sentinelKing] ∧
      sentinelKing.valid = false) := by
  exact ⟨fun g slot toCol => moveFromReserveToColumn_fst g slot toCol, by decide⟩

/-- C1 (code bug): saving a tableau and loading it back restores the
columns, pile and reserves exactly, but the deck comes back with an extra
default-constructed invalid card for every real card, because
`readFileGame` pre-sizes `deckCards` with `deckSize` default cards and
then `push_back`s the `deckSize` cards read from the file: with a
one-card deck, the loaded deck is `[invalid sentinel, Five of Hearts]`,
not `[Five of Hearts]`. -/
theorem C1_roundtrip_deck_doubled :
    (readFileGame true (saveBytes stateForC1) (initState [])).1 = true ∧
      (readFileGame true (saveBytes stateForC1) (initState [])).2.columns =
        stateForC1.columns ∧
      (readFileGame true (saveBytes stateForC1) (initState [])).2.pile =
        stateForC1.pile ∧
      (readFileGame true (saveBytes stateForC1) (initState [])).2.reserveSlots =
        stateForC1.reserveSlots ∧
      (readFileGame true (saveBytes stateForC1) (initState [])).2.deck =
        defaultCard :: stateForC1.deck ∧
      (readFileGame true (saveBytes stateForC1) (initState [])).2.deck ≠
        stateForC1.deck := by
  decide

/-- C6 (code bug): `saveFileGame` returns false when the file cannot be
opened (writing nothing); when the file opens it writes the full byte
image but then reaches the end of the `bool` function without any
`return` statement, so no defined value — in particular not `true` — is
returned (`none` in the model). -/
theorem C6_save_missing_return (g : GameState) :
    saveFileGame false g = (some false, []) ∧
      (saveFileGame true g).1 = none ∧
      (saveFileGame true g).2 = saveBytes g := by
  exact ⟨rfl, rfl, rfl⟩
